import Mathlib

/-!
Verification of the membership / payment-verification workflow of the
gympro backend (`storage.ts`, schema file, route file).

The embedding models the JavaScript runtime pieces the workflow uses:

* a JS `Date` is modelled as an `Instant`: normalized civil calendar
  fields (year, 0-based month as in JS `getMonth`, 1-based day of month)
  plus the milliseconds elapsed within the day.  For normalized instants
  the lexicographic order on `(year, month, day, ms)` coincides with the
  order on JS epoch timestamps, which is what `date1 < date2` compares.
* `d.setDate(d.getDate() + n)` advances the timestamp by exactly `n`
  civil days; we model it as `n` iterations of the successor-day map.
* `d.setMonth(d.getMonth() + k)` rewrites the month field (normalizing
  the month into 0..11 with a year carry) and then lets `MakeDay`
  normalize a day-of-month overflow by rolling into the following month.
  For a normalized input the overflow is at most `31 - 28 = 3` days, so a
  single roll-over step is exact.  `setFullYear` is analogous (the only
  possible overflow is Feb 29 in a non-leap year).
* `d.setHours(0,0,0,0)` truncates the time of day.

The persistent store (Postgres via drizzle) and the in-memory fallback
maps are both modelled as a `Store` of lists keyed by `id`; a drizzle
`UPDATE ... WHERE id = x` is a map over the rows with matching id, and
`INSERT ... RETURNING` is an append using the serial counter.  Date
serialization (`toISOString` / `new Date(string)`) is modelled as the
identity on `Instant`.
-/

/-- Model of a JS `Date`: normalized civil fields plus ms within the day.
`month` is 0-based (JS `getMonth`), `day` is 1-based (JS `getDate`). -/
structure Instant where
  year : Nat
  month : Nat
  day : Nat
  ms : Nat
  deriving Repr, DecidableEq

namespace Instant

/-- JS (proleptic Gregorian) leap-year rule. -/
def isLeapYear (y : Nat) : Bool :=
  (y % 4 == 0 && y % 100 != 0) || y % 400 == 0

/-- Length of the 0-based month `m` of year `y` (JS month numbering). -/
def monthLen (y m : Nat) : Nat :=
  match m with
  | 1 => if isLeapYear y then 29 else 28
  | 3 => 30
  | 5 => 30
  | 8 => 30
  | 10 => 30
  | _ => 31

/-- The JS comparison `a < b` on `Date` objects (timestamp order);
for normalized instants this is the lexicographic order on the fields. -/
def Lt (a b : Instant) : Prop :=
  a.year < b.year ∨
    (a.year = b.year ∧
      (a.month < b.month ∨
        (a.month = b.month ∧
          (a.day < b.day ∨ (a.day = b.day ∧ a.ms < b.ms)))))

instance instDecidableLt (a b : Instant) : Decidable (Lt a b) := by
  unfold Lt; infer_instance

/-- Advance by one civil day, carrying into the next month / year. -/
def succDay (t : Instant) : Instant :=
  if t.day < monthLen t.year t.month then
    { t with day := t.day + 1 }
  else if t.month < 11 then
    ⟨t.year, t.month + 1, 1, t.ms⟩
  else
    ⟨t.year + 1, 0, 1, t.ms⟩

/-- `d.setDate(d.getDate() + n)`: advance by `n` civil days. -/
def addDays (t : Instant) : Nat → Instant
  | 0 => t
  | n + 1 => succDay (addDays t n)

/-- `MakeDay` day-of-month overflow normalization: a day larger than the
month length rolls into the following month.  On the dates produced by
`setMonth`/`setFullYear` from a normalized instant the overflow is at
most 3 days, so one roll-over step is exact. -/
def rollover (t : Instant) : Instant :=
  if t.day ≤ monthLen t.year t.month then t
  else if t.month < 11 then
    ⟨t.year, t.month + 1, t.day - monthLen t.year t.month, t.ms⟩
  else
    ⟨t.year + 1, 0, t.day - monthLen t.year t.month, t.ms⟩

/-- `d.setMonth(d.getMonth() + k)`: add `k` calendar months. -/
def addMonths (t : Instant) (k : Nat) : Instant :=
  rollover ⟨t.year + (t.month + k) / 12, (t.month + k) % 12, t.day, t.ms⟩

/-- `d.setFullYear(d.getFullYear() + k)`: add `k` calendar years. -/
def addYears (t : Instant) (k : Nat) : Instant :=
  rollover ⟨t.year + k, t.month, t.day, t.ms⟩

/-- `d.setHours(0, 0, 0, 0)`: truncate the time of day to midnight. -/
def truncMidnight (t : Instant) : Instant :=
  { t with ms := 0 }

theorem lt_trans' {a b c : Instant} (hab : Lt a b) (hbc : Lt b c) : Lt a c := by
  unfold Lt at *; omega

theorem lt_succDay (t : Instant) : Lt t (succDay t) := by
  unfold succDay
  split
  · exact Or.inr ⟨rfl, Or.inr ⟨rfl, Or.inl (Nat.lt_succ_self _)⟩⟩
  · split
    · exact Or.inr ⟨rfl, Or.inl (Nat.lt_succ_self _)⟩
    · exact Or.inl (Nat.lt_succ_self _)

theorem lt_addDays (t : Instant) {n : Nat} (hn : 0 < n) : Lt t (addDays t n) := by
  induction n with
  | zero => omega
  | succ m ih =>
    cases Nat.eq_zero_or_pos m with
    | inl h0 => subst h0; exact lt_succDay t
    | inr hm => exact lt_trans' (ih hm) (lt_succDay (addDays t m))

theorem month_rollover_le (t : Instant) (hm : t.month < 12) :
    12 * t.year + t.month ≤ 12 * (rollover t).year + (rollover t).month ∧
      (rollover t).month < 12 ∨ rollover t = t := by
  unfold rollover
  split
  · right; rfl
  · split
    next h2 =>
      refine Or.inl ⟨?_, ?_⟩
      · show 12 * t.year + t.month ≤ 12 * t.year + (t.month + 1); omega
      · show t.month + 1 < 12; omega
    next h2 =>
      refine Or.inl ⟨?_, ?_⟩
      · show 12 * t.year + t.month ≤ 12 * (t.year + 1) + 0; omega
      · show (0 : Nat) < 12; omega

theorem lt_of_monthIndex_lt {a b : Instant} (ha : a.month < 12) (hb : b.month < 12)
    (h : 12 * a.year + a.month < 12 * b.year + b.month) : Lt a b := by
  unfold Lt; omega

theorem lt_addMonths (t : Instant) {k : Nat} (hm : t.month < 12) (hk : 0 < k) :
    Lt t (addMonths t k) := by
  unfold addMonths
  have humonth :
      (⟨t.year + (t.month + k) / 12, (t.month + k) % 12, t.day, t.ms⟩ : Instant).month < 12 := by
    show (t.month + k) % 12 < 12; omega
  have huidx :
      12 * (⟨t.year + (t.month + k) / 12, (t.month + k) % 12, t.day, t.ms⟩ : Instant).year +
          (⟨t.year + (t.month + k) / 12, (t.month + k) % 12, t.day, t.ms⟩ : Instant).month =
        12 * t.year + t.month + k := by
    show 12 * (t.year + (t.month + k) / 12) + (t.month + k) % 12 = 12 * t.year + t.month + k
    omega
  rcases month_rollover_le _ humonth with ⟨hle, hmo⟩ | heq
  · exact lt_of_monthIndex_lt hm hmo (by omega)
  · rw [heq]
    exact lt_of_monthIndex_lt hm humonth (by omega)

theorem year_rollover (t : Instant) : t.year ≤ (rollover t).year := by
  unfold rollover
  split
  · exact Nat.le_refl _
  · split
    · exact Nat.le_refl _
    · exact Nat.le_succ _

theorem lt_addYears (t : Instant) {k : Nat} (hk : 0 < k) : Lt t (addYears t k) := by
  unfold addYears
  have h : t.year + k ≤ (rollover ⟨t.year + k, t.month, t.day, t.ms⟩).year :=
    year_rollover ⟨t.year + k, t.month, t.day, t.ms⟩
  exact Or.inl (by omega)

end Instant

/-! ## Data model (schema file: `users`, `membershipPlans`, `members`,
`payments`, `activities` tables and their `$inferSelect` row types).
Nullable columns are `Option`; `serial` ids are `Nat`; money columns are
`Int` cents; free-text columns are `String`. -/

/-- Row of the `users` table. -/
structure User where
  id : Nat
  username : String
  password : String
  name : String
  role : String
  email : String
  phone : Option String
  avatarUrl : Option String
  deriving Repr, DecidableEq

/-- Row of the `membership_plans` table. -/
structure MembershipPlan where
  id : Nat
  name : String
  description : String
  price : Int
  duration : Nat
  durationType : String
  features : List String
  isActive : Bool
  deriving Repr, DecidableEq

/-- Row of the `members` table (`status` and `plan_id` are nullable after
the manual migration; `expiry_date` is nullable). -/
structure Member where
  id : Nat
  firstName : String
  lastName : String
  email : String
  phone : Option String
  address : Option String
  joinDate : String
  planId : Option Nat
  status : Option String
  avatarUrl : Option String
  emergencyContact : Option String
  emergencyPhone : Option String
  notes : Option String
  expiryDate : Option Instant
  deriving Repr, DecidableEq

/-- Row of the `payments` table.  `status` is `Option` because the
in-memory implementation stores the caller-supplied record verbatim, in
which `status` may be absent (`undefined`); the database implementation
always writes a concrete status. -/
structure Payment where
  id : Nat
  memberId : Nat
  amount : Int
  paymentDate : Instant
  paymentMethod : String
  planId : Nat
  status : Option String
  receiptUrl : Option String
  notes : Option String
  verifiedById : Option Nat
  verifiedAt : Option Instant
  deriving Repr, DecidableEq

/-- Row of the `activities` table. -/
structure Activity where
  id : Nat
  userId : Option Nat
  memberId : Option Nat
  activityType : String
  description : String
  timestamp : Instant
  deriving Repr, DecidableEq

/-- `InsertPayment` (the `insertPaymentSchema` pick): caller-supplied
payment data; optional columns may be absent. -/
structure InsertPayment where
  memberId : Nat
  amount : Int
  paymentDate : Instant
  paymentMethod : String
  planId : Nat
  status : Option String
  receiptUrl : Option String
  notes : Option String
  verifiedById : Option Nat
  verifiedAt : Option Instant
  deriving Repr, DecidableEq

/-- The partial member record (`Partial<Member>`) restricted to the
fields this codebase ever passes to `updateMember`: `status`, `planId`
and `expiryDate`.  A `none` field is absent from the patch. -/
structure MemberPatch where
  status : Option String
  planId : Option Nat
  expiryDate : Option Instant
  deriving Repr, DecidableEq

/-- Merge a patch into a member row (`{...member, ...memberData}` /
drizzle `UPDATE ... SET`). -/
def MemberPatch.apply (p : MemberPatch) (m : Member) : Member :=
  { m with
    status := match p.status with | some v => some v | none => m.status
    planId := match p.planId with | some v => some v | none => m.planId
    expiryDate := match p.expiryDate with | some v => some v | none => m.expiryDate }

/-- The shared state shape: the five entity collections plus the serial
counters for the two tables the workflow inserts into.  It models both
the relational store of `DatabaseStorage` and the `Map`s of
`MemStorage` (iteration order = insertion order = list order). -/
structure Store where
  users : List User
  plans : List MembershipPlan
  members : List Member
  payments : List Payment
  activities : List Activity
  nextPaymentId : Nat
  nextActivityId : Nat
  deriving Repr, DecidableEq

/-- `getUser` / `this.users.get`. -/
def findUser (s : Store) (id : Nat) : Option User :=
  s.users.find? (fun u => u.id == id)

/-- `getMembershipPlan` / `this.membershipPlans.get`. -/
def findPlan (s : Store) (id : Nat) : Option MembershipPlan :=
  s.plans.find? (fun p => p.id == id)

/-- `getMember` / `this.members.get`. -/
def findMember (s : Store) (id : Nat) : Option Member :=
  s.members.find? (fun m => m.id == id)

/-- `getPayment` / `this.payments.get`. -/
def findPayment (s : Store) (id : Nat) : Option Payment :=
  s.payments.find? (fun p => p.id == id)

/-- drizzle `UPDATE members SET ... WHERE id = id` / `this.members.set`. -/
def setMemberRows (s : Store) (id : Nat) (f : Member → Member) : Store :=
  { s with members := s.members.map (fun m => if m.id = id then f m else m) }

/-- drizzle `UPDATE payments SET ... WHERE id = id` / `this.payments.set`. -/
def setPaymentRows (s : Store) (id : Nat) (p' : Payment) : Store :=
  { s with payments := s.payments.map (fun p => if p.id = id then p' else p) }

/-- `createActivity`: append an activity row with the next serial id. -/
def addActivity (s : Store) (memberId userId : Option Nat) (ty desc : String)
    (ts : Instant) : Store :=
  { s with
    activities := s.activities ++ [⟨s.nextActivityId, userId, memberId, ty, desc, ts⟩]
    nextActivityId := s.nextActivityId + 1 }

/-! ## Membership extension arithmetic

Two different inline `switch (plan.durationType)` blocks appear in the
source.  They are extracted verbatim as the two functions below; a JS
`switch` on a string is a chain of string-equality tests, and the
`case 'yearly': case 'annual':` fall-through is a disjunction. -/

/-- The `switch` in `DatabaseStorage.verifyPayment` and
`MemStorage.verifyPayment` (cases `day`, `week`, `month`, `year`,
**no default arm**: every other duration type leaves the date
unchanged). -/
def verifyExtend (base : Instant) (durationType : String) (duration : Nat) : Instant :=
  if durationType = "day" then base.addDays duration
  else if durationType = "week" then base.addDays (duration * 7)
  else if durationType = "month" then base.addMonths duration
  else if durationType = "year" then base.addYears duration
  else base

/-- The `switch` in `DatabaseStorage.createPayment` (cases `daily`,
`weekly`, `monthly`, `yearly`/`annual`, and a default arm that adds
`duration` days). -/
def createExtend (base : Instant) (durationType : String) (duration : Nat) : Instant :=
  if durationType = "daily" then base.addDays duration
  else if durationType = "weekly" then base.addDays (duration * 7)
  else if durationType = "monthly" then base.addMonths duration
  else if durationType = "yearly" ∨ durationType = "annual" then base.addYears duration
  else base.addDays duration

/-- The member update written by the create-with-verified-status path
(direct drizzle `UPDATE members SET status, planId, expiryDate`). -/
def activateMember (m : Member) (planId : Nat) (expiry : Instant) : Member :=
  { m with status := some "active", planId := some planId, expiryDate := some expiry }

/-- JS `paymentData.status || 'verified'`: absent and empty-string
statuses (both falsy) default to `verified`. -/
def statusOrVerified (st : Option String) : String :=
  match st with
  | some s => if s = "" then "verified" else s
  | none => "verified"

/-- drizzle `INSERT INTO payments ... RETURNING` / `this.payments.set(id, ...)`:
append the row and advance the serial counter. -/
def insertPaymentRow (s : Store) (p : Payment) : Store :=
  { s with payments := s.payments ++ [p], nextPaymentId := s.nextPaymentId + 1 }

/-! ## DatabaseStorage (the exported `storage`)

Each operation takes the store and the wall clock `now` (`new Date()`;
the successive `new Date()` calls inside one handler are modelled as the
same instant) and returns the operation result paired with the
post-state. -/

namespace DatabaseStorage

/-- `DatabaseStorage.updateMember`: drizzle update-returning on the
member row, then (if a row was updated) a `member_updated` activity. -/
def updateMember (s : Store) (now : Instant) (id : Nat) (patch : MemberPatch) :
    Option Member × Store :=
  match findMember s id with
  | none => (none, s)
  | some m =>
    let updatedMember := patch.apply m
    let s1 := setMemberRows s id (fun _ => updatedMember)
    let s2 := addActivity s1 (some id) none "member_updated"
      ("Member updated: " ++ updatedMember.firstName ++ " " ++ updatedMember.lastName) now
    (some updatedMember, s2)

/-- `DatabaseStorage.verifyPayment`. -/
def verifyPayment (s : Store) (now : Instant) (id adminId : Nat) :
    Option Payment × Store :=
  match findPayment s id with
  | none => (none, s)
  | some payment =>
    let updatedPayment :=
      { payment with
        status := some "verified", verifiedById := some adminId, verifiedAt := some now }
    let s1 := setPaymentRows s id updatedPayment
    match findMember s1 payment.memberId, findUser s1 adminId, findPlan s1 payment.planId with
    | some member, some admin, some plan =>
      let s2 := addActivity s1 (some payment.memberId) (some adminId) "payment_verified"
        ("Pago de " ++ member.firstName ++ " " ++ member.lastName ++ " por " ++
          plan.name ++ " verificado por " ++ admin.name) now
      let currentDate := now
      let expiry0 := match member.expiryDate with | some e => e | none => currentDate
      let base := if Instant.Lt expiry0 currentDate then currentDate else expiry0
      let expiryDate := verifyExtend base plan.durationType plan.duration
      let s3 := (updateMember s2 now member.id
        ⟨some "active", some plan.id, some expiryDate⟩).2
      let s4 := addActivity s3 (some member.id) (some adminId) "membership_activated"
        ("Membresia " ++ plan.name ++ " activada para " ++ member.firstName ++ " " ++
          member.lastName) now
      (some updatedPayment, s4)
    | _, _, _ => (some updatedPayment, s1)

/-- `DatabaseStorage.createPayment`.  The activity description's amount
formatting (`(amount / 100).toFixed(2)`) is elided from the description
string; descriptions carry no verified property. -/
def createPayment (s : Store) (now : Instant) (paymentData : InsertPayment) :
    Payment × Store :=
  let status := statusOrVerified paymentData.status
  let verifiedAt := if status = "verified" then some now else none
  let verifiedById := if status = "verified" then paymentData.verifiedById else none
  let newPayment : Payment :=
    ⟨s.nextPaymentId, paymentData.memberId, paymentData.amount, paymentData.paymentDate,
      paymentData.paymentMethod, paymentData.planId, some status, paymentData.receiptUrl,
      paymentData.notes, verifiedById, verifiedAt⟩
  let s1 := insertPaymentRow s newPayment
  match findMember s1 newPayment.memberId, findPlan s1 newPayment.planId with
  | some member, some plan =>
    let s2 := addActivity s1 (some newPayment.memberId) none "payment_created"
      (member.firstName ++ " " ++ member.lastName ++ " registro un pago por " ++ plan.name)
      now
    if status = "verified" then
      let paymentDate := newPayment.paymentDate
      let expiry0 := paymentDate
      let duration := if plan.duration > 0 then plan.duration else 1
      let expiry1 := createExtend expiry0 plan.durationType duration
      let expiryDate := expiry1.addDays 1
      let s3 := setMemberRows s2 member.id (fun m => activateMember m plan.id expiryDate)
      let s4 := addActivity s3 (some member.id) newPayment.verifiedById
        "membership_activated"
        ("Membresia " ++ plan.name ++ " activada para " ++ member.firstName ++ " " ++
          member.lastName) now
      (newPayment, s4)
    else (newPayment, s2)
  | _, _ => (newPayment, s1)

/-- `DatabaseStorage.rejectPayment`.  The source issues the drizzle
update-returning directly; an absent row updates nothing and returns
`undefined`, modelled by the existence check.  drizzle drops `undefined`
fields from `SET`, so an absent `notes` argument leaves the column
untouched. -/
def rejectPayment (s : Store) (now : Instant) (id adminId : Nat)
    (notes : Option String) : Option Payment × Store :=
  match findPayment s id with
  | none => (none, s)
  | some payment =>
    let updatedPayment :=
      { payment with
        status := some "rejected", verifiedById := some adminId, verifiedAt := some now
        notes := match notes with | some n => some n | none => payment.notes }
    let s1 := setPaymentRows s id updatedPayment
    match findMember s1 updatedPayment.memberId, findUser s1 adminId with
    | some member, some admin =>
      (some updatedPayment,
        addActivity s1 (some updatedPayment.memberId) (some adminId) "payment_rejected"
          ("Pago de " ++ member.firstName ++ " " ++ member.lastName ++
            " fue rechazado por " ++ admin.name) now)
    | _, _ => (some updatedPayment, s1)

end DatabaseStorage

/-- The sweep condition shared by both `getMembers` implementations,
parameterized by the instant the expiry is compared against:
`member.status === 'active' && member.expiryDate && expiry < today`. -/
def memberExpired (today : Instant) (m : Member) : Bool :=
  decide (m.status = some "active") &&
    match m.expiryDate with
    | some e => decide (Instant.Lt e today)
    | none => false

/-- `member.status = 'expired'` (the sweep's member mutation). -/
def expireMember (m : Member) : Member :=
  { m with status := some "expired" }

/-- One iteration of the expiry-sweep loop body: flip the member's
status to `expired` in the store, then log one `membership_expired`
activity carrying the member's id. -/
def sweepStep (now : Instant) (s : Store) (m : Member) : Store :=
  addActivity (setMemberRows s m.id expireMember)
    (some m.id) none "membership_expired"
    ("Membership expired for: " ++ m.firstName ++ " " ++ m.lastName) now

namespace DatabaseStorage

/-- `DatabaseStorage.getMembers`: reads the member list, truncates `now`
to midnight, filters the active members whose expiry is strictly before
that midnight, updates each and logs one activity each, and returns the
fetched list with the in-place status mutations. -/
def getMembers (s : Store) (now : Instant) : List Member × Store :=
  let membersList := s.members
  let today := Instant.truncMidnight now
  let membersToUpdate := membersList.filter (memberExpired today)
  let s1 := membersToUpdate.foldl (sweepStep now) s
  (membersList.map (fun m => if memberExpired today m then expireMember m else m),
    s1)

end DatabaseStorage

/-! ## MemStorage (the in-memory fallback implementation) -/

namespace MemStorage

/-- `MemStorage.updateMember`: merge the patch into the stored member and
log a `member_updated` activity. -/
def updateMember (s : Store) (now : Instant) (id : Nat) (patch : MemberPatch) :
    Option Member × Store :=
  match findMember s id with
  | none => (none, s)
  | some m =>
    let updatedMember := patch.apply m
    let s1 := setMemberRows s id (fun _ => updatedMember)
    let s2 := addActivity s1 (some id) none "member_updated"
      ("Member updated: " ++ updatedMember.firstName ++ " " ++ updatedMember.lastName) now
    (some updatedMember, s2)

/-- `MemStorage.createPayment`: stores `{...paymentData, id}` verbatim —
no status defaulting, no verification bookkeeping, no membership
extension — then logs `payment_created` when member and plan resolve. -/
def createPayment (s : Store) (now : Instant) (paymentData : InsertPayment) :
    Payment × Store :=
  let payment : Payment :=
    ⟨s.nextPaymentId, paymentData.memberId, paymentData.amount, paymentData.paymentDate,
      paymentData.paymentMethod, paymentData.planId, paymentData.status,
      paymentData.receiptUrl, paymentData.notes, paymentData.verifiedById,
      paymentData.verifiedAt⟩
  let s1 := insertPaymentRow s payment
  match findMember s1 payment.memberId, findPlan s1 payment.planId with
  | some member, some plan =>
    (payment,
      addActivity s1 (some payment.memberId) none "payment_created"
        (member.firstName ++ " " ++ member.lastName ++ " registro un pago por " ++
          plan.name) now)
  | _, _ => (payment, s1)

/-- `MemStorage.verifyPayment`: same payment update and the same
duration `switch` as the database implementation, but the member patch
carries no `planId` and no `membership_activated` activity is logged. -/
def verifyPayment (s : Store) (now : Instant) (id adminId : Nat) :
    Option Payment × Store :=
  match findPayment s id with
  | none => (none, s)
  | some payment =>
    let updatedPayment :=
      { payment with
        status := some "verified", verifiedById := some adminId, verifiedAt := some now }
    let s1 := setPaymentRows s id updatedPayment
    match findMember s1 payment.memberId, findUser s1 adminId, findPlan s1 payment.planId with
    | some member, some admin, some plan =>
      let s2 := addActivity s1 (some payment.memberId) (some adminId) "payment_verified"
        ("Pago de " ++ member.firstName ++ " " ++ member.lastName ++ " por " ++
          plan.name ++ " verificado por " ++ admin.name) now
      let currentDate := now
      let expiry0 := match member.expiryDate with | some e => e | none => currentDate
      let base := if Instant.Lt expiry0 currentDate then currentDate else expiry0
      let expiryDate := verifyExtend base plan.durationType plan.duration
      let s3 := (updateMember s2 now member.id ⟨some "active", none, some expiryDate⟩).2
      (some updatedPayment, s3)
    | _, _, _ => (some updatedPayment, s1)

/-- `MemStorage.rejectPayment`: early-return on a missing payment; the
JS `notes || payment.notes` keeps the old notes when the argument is
absent or the empty string. -/
def rejectPayment (s : Store) (now : Instant) (id adminId : Nat)
    (notes : Option String) : Option Payment × Store :=
  match findPayment s id with
  | none => (none, s)
  | some payment =>
    let updatedPayment :=
      { payment with
        status := some "rejected", verifiedById := some adminId, verifiedAt := some now
        notes := match notes with
          | some n => if n = "" then payment.notes else some n
          | none => payment.notes }
    let s1 := setPaymentRows s id updatedPayment
    match findMember s1 payment.memberId, findUser s1 adminId with
    | some member, some admin =>
      (some updatedPayment,
        addActivity s1 (some payment.memberId) (some adminId) "payment_rejected"
          ("Pago de " ++ member.firstName ++ " " ++ member.lastName ++
            " rechazado por " ++ admin.name) now)
    | _, _ => (some updatedPayment, s1)

/-- `MemStorage.getMembers`: the same sweep loop, but the expiry is
compared against the **full** current timestamp (`new Date()`), with no
midnight truncation, and the post-sweep map contents are returned. -/
def getMembers (s : Store) (now : Instant) : List Member × Store :=
  let today := now
  let membersToUpdate := s.members.filter (memberExpired today)
  let s1 := membersToUpdate.foldl (sweepStep now) s
  (s1.members, s1)

end MemStorage

/-! ## Store lemmas -/

@[simp] theorem findMember_setPaymentRows (s : Store) (i : Nat) (p : Payment) (x : Nat) :
    findMember (setPaymentRows s i p) x = findMember s x := rfl

@[simp] theorem findUser_setPaymentRows (s : Store) (i : Nat) (p : Payment) (x : Nat) :
    findUser (setPaymentRows s i p) x = findUser s x := rfl

@[simp] theorem findPlan_setPaymentRows (s : Store) (i : Nat) (p : Payment) (x : Nat) :
    findPlan (setPaymentRows s i p) x = findPlan s x := rfl

@[simp] theorem findMember_addActivity (s : Store) (mi ui : Option Nat) (ty d : String)
    (ts : Instant) (x : Nat) : findMember (addActivity s mi ui ty d ts) x = findMember s x :=
  rfl

@[simp] theorem findUser_addActivity (s : Store) (mi ui : Option Nat) (ty d : String)
    (ts : Instant) (x : Nat) : findUser (addActivity s mi ui ty d ts) x = findUser s x :=
  rfl

@[simp] theorem findPlan_addActivity (s : Store) (mi ui : Option Nat) (ty d : String)
    (ts : Instant) (x : Nat) : findPlan (addActivity s mi ui ty d ts) x = findPlan s x :=
  rfl

@[simp] theorem setMemberRows_plans (s : Store) (i : Nat) (f : Member → Member) :
    (setMemberRows s i f).plans = s.plans := rfl

@[simp] theorem setMemberRows_users (s : Store) (i : Nat) (f : Member → Member) :
    (setMemberRows s i f).users = s.users := rfl

@[simp] theorem setMemberRows_payments (s : Store) (i : Nat) (f : Member → Member) :
    (setMemberRows s i f).payments = s.payments := rfl

@[simp] theorem setMemberRows_activities (s : Store) (i : Nat) (f : Member → Member) :
    (setMemberRows s i f).activities = s.activities := rfl

@[simp] theorem addActivity_members (s : Store) (mi ui : Option Nat) (ty d : String)
    (ts : Instant) : (addActivity s mi ui ty d ts).members = s.members := rfl

@[simp] theorem addActivity_plans (s : Store) (mi ui : Option Nat) (ty d : String)
    (ts : Instant) : (addActivity s mi ui ty d ts).plans = s.plans := rfl

@[simp] theorem addActivity_users (s : Store) (mi ui : Option Nat) (ty d : String)
    (ts : Instant) : (addActivity s mi ui ty d ts).users = s.users := rfl

@[simp] theorem addActivity_payments (s : Store) (mi ui : Option Nat) (ty d : String)
    (ts : Instant) : (addActivity s mi ui ty d ts).payments = s.payments := rfl

@[simp] theorem setPaymentRows_members (s : Store) (i : Nat) (p : Payment) :
    (setPaymentRows s i p).members = s.members := rfl

@[simp] theorem setPaymentRows_plans (s : Store) (i : Nat) (p : Payment) :
    (setPaymentRows s i p).plans = s.plans := rfl

@[simp] theorem setPaymentRows_users (s : Store) (i : Nat) (p : Payment) :
    (setPaymentRows s i p).users = s.users := rfl

@[simp] theorem setPaymentRows_activities (s : Store) (i : Nat) (p : Payment) :
    (setPaymentRows s i p).activities = s.activities := rfl

@[simp] theorem setPaymentRows_payments (s : Store) (i : Nat) (p : Payment) :
    (setPaymentRows s i p).payments =
      s.payments.map (fun q => if q.id = i then p else q) := rfl

@[simp] theorem findMember_insertPaymentRow (s : Store) (p : Payment) (x : Nat) :
    findMember (insertPaymentRow s p) x = findMember s x := rfl

@[simp] theorem findUser_insertPaymentRow (s : Store) (p : Payment) (x : Nat) :
    findUser (insertPaymentRow s p) x = findUser s x := rfl

@[simp] theorem findPlan_insertPaymentRow (s : Store) (p : Payment) (x : Nat) :
    findPlan (insertPaymentRow s p) x = findPlan s x := rfl

@[simp] theorem insertPaymentRow_members (s : Store) (p : Payment) :
    (insertPaymentRow s p).members = s.members := rfl

@[simp] theorem insertPaymentRow_plans (s : Store) (p : Payment) :
    (insertPaymentRow s p).plans = s.plans := rfl

@[simp] theorem insertPaymentRow_users (s : Store) (p : Payment) :
    (insertPaymentRow s p).users = s.users := rfl

@[simp] theorem insertPaymentRow_activities (s : Store) (p : Payment) :
    (insertPaymentRow s p).activities = s.activities := rfl

@[simp] theorem insertPaymentRow_payments (s : Store) (p : Payment) :
    (insertPaymentRow s p).payments = s.payments ++ [p] := rfl

theorem findMember_id {s : Store} {i : Nat} {m : Member} (h : findMember s i = some m) :
    m.id = i := by
  have := List.find?_some h
  simpa using this

theorem find?_map_ite {l : List Member} {i : Nat} {f : Member → Member}
    (hf : ∀ m, m.id = i → (f m).id = i) :
    (l.map fun m => if m.id = i then f m else m).find? (fun m => m.id == i) =
      (l.find? (fun m => m.id == i)).map f := by
  induction l with
  | nil => rfl
  | cons a t ih =>
    by_cases h : a.id = i
    · rw [List.map_cons, if_pos h,
        List.find?_cons_of_pos _ (by simpa using hf a h),
        List.find?_cons_of_pos _ (by simpa using h)]
      rfl
    · rw [List.map_cons, if_neg h,
        List.find?_cons_of_neg _ (by simpa using h),
        List.find?_cons_of_neg _ (by simpa using h)]
      exact ih

theorem findMember_setMemberRows_map {s : Store} {i : Nat} {f : Member → Member}
    (hf : ∀ m, m.id = i → (f m).id = i) :
    findMember (setMemberRows s i f) i = (findMember s i).map f :=
  find?_map_ite hf

theorem findMember_setMemberRows_const (s : Store) (i : Nat) (v : Member) (hv : v.id = i) :
    findMember (setMemberRows s i (fun _ => v)) i = (findMember s i).map (fun _ => v) :=
  find?_map_ite (fun _ _ => hv)

theorem findMember_setMemberRows_apply (s : Store) (i : Nat) (p : MemberPatch) (m : Member)
    (hm : m.id = i) :
    findMember (setMemberRows s i (fun _ => p.apply m)) i =
      (findMember s i).map (fun _ => p.apply m) :=
  find?_map_ite (fun _ _ => by simpa [MemberPatch.apply] using hm)

theorem findMember_setMemberRows_activate (s : Store) (i planId : Nat) (expiry : Instant) :
    findMember (setMemberRows s i (fun m => activateMember m planId expiry)) i =
      (findMember s i).map (fun m => activateMember m planId expiry) :=
  find?_map_ite (fun _ hm => hm)

/-- The member row after `updateMember` on a present id, both backends
sharing the same shape. -/
theorem updateMember_member_row {s : Store} {now : Instant} {i : Nat} {patch : MemberPatch}
    {m : Member} (h : findMember s i = some m) :
    findMember (DatabaseStorage.updateMember s now i patch).2 i = some (patch.apply m) := by
  unfold DatabaseStorage.updateMember
  rw [h]
  simp only [findMember_addActivity]
  rw [findMember_setMemberRows_map (f := fun _ => patch.apply m)
    (fun _ _ => by
      have := findMember_id h
      simp [MemberPatch.apply, this]),
    h]
  rfl

/-! ## Characterization of the operations on the found / not-found branches -/

/-- The base date of the explicit-verify extension: the member's stored
expiry if present, replaced by `now` when it lies strictly in the past. -/
def verifyBase (member : Member) (now : Instant) : Instant :=
  let expiry0 := match member.expiryDate with | some e => e | none => now
  if Instant.Lt expiry0 now then now else expiry0


/-- The audit log projected to `(activityType, memberId)`: the facts the
claims state about emitted audit entries. -/
def actLog (s : Store) : List (String × Option Nat) :=
  s.activities.map (fun a => (a.activityType, a.memberId))

theorem DatabaseStorage.verifyPayment_payment {s : Store} {now : Instant} {id adminId : Nat}
    {payment : Payment} {member : Member} {admin : User} {plan : MembershipPlan}
    (hpay : findPayment s id = some payment)
    (hmem : findMember s payment.memberId = some member)
    (hadm : findUser s adminId = some admin)
    (hplan : findPlan s payment.planId = some plan) :
    (DatabaseStorage.verifyPayment s now id adminId).1 =
      some { payment with
        status := some "verified", verifiedById := some adminId, verifiedAt := some now } := by
  unfold DatabaseStorage.verifyPayment
  rw [hpay]
  simp only [findMember_setPaymentRows, findUser_setPaymentRows, findPlan_setPaymentRows,
    hmem, hadm, hplan]

theorem DatabaseStorage.verifyPayment_member {s : Store} {now : Instant} {id adminId : Nat}
    {payment : Payment} {member : Member} {admin : User} {plan : MembershipPlan}
    (hpay : findPayment s id = some payment)
    (hmem : findMember s payment.memberId = some member)
    (hadm : findUser s adminId = some admin)
    (hplan : findPlan s payment.planId = some plan) :
    findMember (DatabaseStorage.verifyPayment s now id adminId).2 member.id =
      some { member with
        status := some "active", planId := some plan.id,
        expiryDate :=
          some (verifyExtend (verifyBase member now) plan.durationType plan.duration) } := by
  have hid : member.id = payment.memberId := findMember_id hmem
  have hmem' : findMember s member.id = some member := by rw [hid]; exact hmem
  unfold DatabaseStorage.verifyPayment DatabaseStorage.updateMember
  rw [hpay]
  simp only [findMember_setPaymentRows, findUser_setPaymentRows, findPlan_setPaymentRows,
    findMember_addActivity, hmem, hadm, hplan, hmem']
  rw [findMember_setMemberRows_apply _ _ _ _ rfl]
  simp only [findMember_addActivity, findMember_setPaymentRows, hmem']
  simp [MemberPatch.apply, verifyBase]

theorem DatabaseStorage.verifyPayment_actLog {s : Store} {now : Instant} {id adminId : Nat}
    {payment : Payment} {member : Member} {admin : User} {plan : MembershipPlan}
    (hpay : findPayment s id = some payment)
    (hmem : findMember s payment.memberId = some member)
    (hadm : findUser s adminId = some admin)
    (hplan : findPlan s payment.planId = some plan) :
    actLog (DatabaseStorage.verifyPayment s now id adminId).2 =
      actLog s ++
        [("payment_verified", some payment.memberId),
          ("member_updated", some member.id),
          ("membership_activated", some member.id)] := by
  have hid : member.id = payment.memberId := findMember_id hmem
  have hmem' : findMember s member.id = some member := by rw [hid]; exact hmem
  unfold DatabaseStorage.verifyPayment DatabaseStorage.updateMember
  rw [hpay]
  simp only [findMember_setPaymentRows, findUser_setPaymentRows, findPlan_setPaymentRows,
    findMember_addActivity, hmem, hadm, hplan, hmem']
  simp [actLog, addActivity, setMemberRows, setPaymentRows]

theorem DatabaseStorage.verifyPayment_frames {s : Store} {now : Instant} {id adminId : Nat}
    {payment : Payment} {member : Member} {admin : User} {plan : MembershipPlan}
    (hpay : findPayment s id = some payment)
    (hmem : findMember s payment.memberId = some member)
    (hadm : findUser s adminId = some admin)
    (hplan : findPlan s payment.planId = some plan) :
    (DatabaseStorage.verifyPayment s now id adminId).2.plans = s.plans ∧
      (DatabaseStorage.verifyPayment s now id adminId).2.users = s.users ∧
      (DatabaseStorage.verifyPayment s now id adminId).2.payments =
        s.payments.map (fun q => if q.id = id then
          { payment with
            status := some "verified", verifiedById := some adminId,
            verifiedAt := some now } else q) := by
  have hid : member.id = payment.memberId := findMember_id hmem
  have hmem' : findMember s member.id = some member := by rw [hid]; exact hmem
  unfold DatabaseStorage.verifyPayment DatabaseStorage.updateMember
  rw [hpay]
  simp only [findMember_setPaymentRows, findUser_setPaymentRows, findPlan_setPaymentRows,
    findMember_addActivity, hmem, hadm, hplan, hmem']
  exact ⟨rfl, rfl, rfl⟩

theorem DatabaseStorage.verifyPayment_missing {s : Store} {now : Instant} {id adminId : Nat}
    {payment : Payment}
    (hpay : findPayment s id = some payment)
    (hmiss : findMember s payment.memberId = none ∨ findUser s adminId = none ∨
      findPlan s payment.planId = none) :
    (DatabaseStorage.verifyPayment s now id adminId).1 =
        some { payment with
          status := some "verified", verifiedById := some adminId, verifiedAt := some now } ∧
      (DatabaseStorage.verifyPayment s now id adminId).2.members = s.members ∧
      (DatabaseStorage.verifyPayment s now id adminId).2.activities = s.activities ∧
      (DatabaseStorage.verifyPayment s now id adminId).2.plans = s.plans ∧
      (DatabaseStorage.verifyPayment s now id adminId).2.users = s.users ∧
      (DatabaseStorage.verifyPayment s now id adminId).2.payments =
        s.payments.map (fun q => if q.id = id then
          { payment with
            status := some "verified", verifiedById := some adminId,
            verifiedAt := some now } else q) := by
  unfold DatabaseStorage.verifyPayment
  rw [hpay]
  rcases hm : findMember s payment.memberId with _ | member <;>
    rcases ha : findUser s adminId with _ | admin <;>
      rcases hp : findPlan s payment.planId with _ | plan <;>
        simp only [findMember_setPaymentRows, findUser_setPaymentRows,
          findPlan_setPaymentRows, hm, ha, hp] <;>
        first
          | exact ⟨trivial, rfl, rfl, rfl, rfl, rfl⟩
          | skip
  rcases hmiss with h | h | h
  · simp [h] at hm
  · simp [h] at ha
  · simp [h] at hp

theorem DatabaseStorage.createPayment_payment {s : Store} {now : Instant}
    {paymentData : InsertPayment}
    (hst : statusOrVerified paymentData.status = "verified") :
    (DatabaseStorage.createPayment s now paymentData).1 =
      ⟨s.nextPaymentId, paymentData.memberId, paymentData.amount, paymentData.paymentDate,
        paymentData.paymentMethod, paymentData.planId, some "verified",
        paymentData.receiptUrl, paymentData.notes, paymentData.verifiedById, some now⟩ := by
  unfold DatabaseStorage.createPayment
  rw [hst]
  rcases hm : findMember s paymentData.memberId with _ | member <;>
    rcases hp : findPlan s paymentData.planId with _ | plan <;>
      simp only [findMember_insertPaymentRow, findPlan_insertPaymentRow, hm, hp] <;>
      simp

theorem DatabaseStorage.createPayment_member {s : Store} {now : Instant}
    {paymentData : InsertPayment} {member : Member} {plan : MembershipPlan}
    (hmem : findMember s paymentData.memberId = some member)
    (hplan : findPlan s paymentData.planId = some plan)
    (hst : statusOrVerified paymentData.status = "verified") :
    findMember (DatabaseStorage.createPayment s now paymentData).2 member.id =
      some { member with
        status := some "active", planId := some plan.id,
        expiryDate :=
          some ((createExtend paymentData.paymentDate plan.durationType
            (if plan.duration > 0 then plan.duration else 1)).addDays 1) } := by
  have hid : member.id = paymentData.memberId := findMember_id hmem
  have hmem' : findMember s member.id = some member := by rw [hid]; exact hmem
  unfold DatabaseStorage.createPayment
  rw [hst]
  simp only [findMember_insertPaymentRow, findPlan_insertPaymentRow, hmem, hplan,
    if_pos rfl]
  simp only [reduceIte, findMember_addActivity]
  rw [findMember_setMemberRows_activate]
  simp only [findMember_addActivity, findMember_insertPaymentRow, hmem']
  rfl

theorem DatabaseStorage.createPayment_actLog {s : Store} {now : Instant}
    {paymentData : InsertPayment} {member : Member} {plan : MembershipPlan}
    (hmem : findMember s paymentData.memberId = some member)
    (hplan : findPlan s paymentData.planId = some plan)
    (hst : statusOrVerified paymentData.status = "verified") :
    actLog (DatabaseStorage.createPayment s now paymentData).2 =
      actLog s ++
        [("payment_created", some paymentData.memberId),
          ("membership_activated", some member.id)] := by
  unfold DatabaseStorage.createPayment
  rw [hst]
  simp only [findMember_insertPaymentRow, findPlan_insertPaymentRow, hmem, hplan,
    if_pos rfl]
  simp [actLog, addActivity, setMemberRows, insertPaymentRow]

theorem DatabaseStorage.createPayment_frames {s : Store} {now : Instant}
    {paymentData : InsertPayment} {member : Member} {plan : MembershipPlan}
    (hmem : findMember s paymentData.memberId = some member)
    (hplan : findPlan s paymentData.planId = some plan)
    (hst : statusOrVerified paymentData.status = "verified") :
    (DatabaseStorage.createPayment s now paymentData).2.plans = s.plans ∧
      (DatabaseStorage.createPayment s now paymentData).2.users = s.users ∧
      (DatabaseStorage.createPayment s now paymentData).2.payments =
        s.payments ++ [(DatabaseStorage.createPayment s now paymentData).1] := by
  unfold DatabaseStorage.createPayment
  rw [hst]
  simp only [findMember_insertPaymentRow, findPlan_insertPaymentRow, hmem, hplan,
    if_pos rfl]
  exact ⟨rfl, rfl, rfl⟩

theorem DatabaseStorage.createPayment_not_verified {s : Store} {now : Instant}
    {paymentData : InsertPayment}
    (hst : statusOrVerified paymentData.status ≠ "verified") :
    (DatabaseStorage.createPayment s now paymentData).1 =
        ⟨s.nextPaymentId, paymentData.memberId, paymentData.amount,
          paymentData.paymentDate, paymentData.paymentMethod, paymentData.planId,
          some (statusOrVerified paymentData.status), paymentData.receiptUrl,
          paymentData.notes, none, none⟩ ∧
      (DatabaseStorage.createPayment s now paymentData).2.members = s.members ∧
      (DatabaseStorage.createPayment s now paymentData).2.plans = s.plans ∧
      (DatabaseStorage.createPayment s now paymentData).2.users = s.users ∧
      (DatabaseStorage.createPayment s now paymentData).2.payments =
        s.payments ++ [(DatabaseStorage.createPayment s now paymentData).1] := by
  unfold DatabaseStorage.createPayment
  rcases hm : findMember s paymentData.memberId with _ | member <;>
    rcases hp : findPlan s paymentData.planId with _ | plan <;>
      simp only [findMember_insertPaymentRow, findPlan_insertPaymentRow, hm, hp,
        if_neg hst] <;>
      exact ⟨by simp [hst], rfl, rfl, rfl, rfl⟩

theorem DatabaseStorage.rejectPayment_spec {s : Store} {now : Instant} {id adminId : Nat}
    {payment : Payment} {member : Member} {admin : User} {notes : Option String}
    (hpay : findPayment s id = some payment)
    (hmem : findMember s payment.memberId = some member)
    (hadm : findUser s adminId = some admin) :
    (DatabaseStorage.rejectPayment s now id adminId notes).1 =
        some { payment with
          status := some "rejected", verifiedById := some adminId, verifiedAt := some now
          notes := match notes with | some n => some n | none => payment.notes } ∧
      (DatabaseStorage.rejectPayment s now id adminId notes).2.members = s.members ∧
      (DatabaseStorage.rejectPayment s now id adminId notes).2.plans = s.plans ∧
      (DatabaseStorage.rejectPayment s now id adminId notes).2.users = s.users ∧
      (DatabaseStorage.rejectPayment s now id adminId notes).2.payments =
        s.payments.map (fun q => if q.id = id then
          { payment with
            status := some "rejected", verifiedById := some adminId, verifiedAt := some now
            notes := match notes with | some n => some n | none => payment.notes }
          else q) ∧
      actLog (DatabaseStorage.rejectPayment s now id adminId notes).2 =
        actLog s ++ [("payment_rejected", some payment.memberId)] := by
  unfold DatabaseStorage.rejectPayment
  rw [hpay]
  simp only [findMember_setPaymentRows, findUser_setPaymentRows, hmem, hadm]
  refine ⟨trivial, rfl, rfl, rfl, rfl, ?_⟩
  simp [actLog, addActivity]

theorem DatabaseStorage.rejectPayment_notFound {s : Store} {now : Instant}
    {id adminId : Nat} {notes : Option String}
    (hpay : findPayment s id = none) :
    DatabaseStorage.rejectPayment s now id adminId notes = (none, s) := by
  unfold DatabaseStorage.rejectPayment
  rw [hpay]

theorem DatabaseStorage.verifyPayment_notFound {s : Store} {now : Instant}
    {id adminId : Nat}
    (hpay : findPayment s id = none) :
    DatabaseStorage.verifyPayment s now id adminId = (none, s) := by
  unfold DatabaseStorage.verifyPayment
  rw [hpay]

theorem memVerifyPayment_member {s : Store} {now : Instant} {id adminId : Nat}
    {payment : Payment} {member : Member} {admin : User} {plan : MembershipPlan}
    (hpay : findPayment s id = some payment)
    (hmem : findMember s payment.memberId = some member)
    (hadm : findUser s adminId = some admin)
    (hplan : findPlan s payment.planId = some plan) :
    findMember (MemStorage.verifyPayment s now id adminId).2 member.id =
      some { member with
        status := some "active",
        expiryDate :=
          some (verifyExtend (verifyBase member now) plan.durationType plan.duration) } := by
  have hid : member.id = payment.memberId := findMember_id hmem
  have hmem' : findMember s member.id = some member := by rw [hid]; exact hmem
  unfold MemStorage.verifyPayment MemStorage.updateMember
  rw [hpay]
  simp only [findMember_setPaymentRows, findUser_setPaymentRows, findPlan_setPaymentRows,
    findMember_addActivity, hmem, hadm, hplan, hmem']
  rw [findMember_setMemberRows_apply _ _ _ _ rfl]
  simp only [findMember_addActivity, findMember_setPaymentRows, hmem']
  simp [MemberPatch.apply, verifyBase]

theorem memVerifyPayment_actLog {s : Store} {now : Instant} {id adminId : Nat}
    {payment : Payment} {member : Member} {admin : User} {plan : MembershipPlan}
    (hpay : findPayment s id = some payment)
    (hmem : findMember s payment.memberId = some member)
    (hadm : findUser s adminId = some admin)
    (hplan : findPlan s payment.planId = some plan) :
    actLog (MemStorage.verifyPayment s now id adminId).2 =
      actLog s ++
        [("payment_verified", some payment.memberId),
          ("member_updated", some member.id)] := by
  have hid : member.id = payment.memberId := findMember_id hmem
  have hmem' : findMember s member.id = some member := by rw [hid]; exact hmem
  unfold MemStorage.verifyPayment MemStorage.updateMember
  rw [hpay]
  simp only [findMember_setPaymentRows, findUser_setPaymentRows, findPlan_setPaymentRows,
    findMember_addActivity, hmem, hadm, hplan, hmem']
  simp [actLog, addActivity, setMemberRows, setPaymentRows]

theorem MemStorage.createPayment_spec (s : Store) (now : Instant)
    (paymentData : InsertPayment) :
    (MemStorage.createPayment s now paymentData).1 =
        ⟨s.nextPaymentId, paymentData.memberId, paymentData.amount,
          paymentData.paymentDate, paymentData.paymentMethod, paymentData.planId,
          paymentData.status, paymentData.receiptUrl, paymentData.notes,
          paymentData.verifiedById, paymentData.verifiedAt⟩ ∧
      (MemStorage.createPayment s now paymentData).2.members = s.members ∧
      (MemStorage.createPayment s now paymentData).2.payments =
        s.payments ++ [(MemStorage.createPayment s now paymentData).1] := by
  unfold MemStorage.createPayment
  rcases hm : findMember s paymentData.memberId with _ | member <;>
    rcases hp : findPlan s paymentData.planId with _ | plan <;>
      simp only [findMember_insertPaymentRow, findPlan_insertPaymentRow, hm, hp] <;>
      exact ⟨trivial, rfl, rfl⟩

/-! ## Sweep-loop lemmas -/

theorem sweep_fold_members (now : Instant) :
    ∀ (todo : List Member) (s : Store),
      (todo.foldl (sweepStep now) s).members =
        todo.foldl
          (fun l m => l.map (fun x => if x.id = m.id then expireMember x else x))
          s.members := by
  intro todo
  induction todo with
  | nil => intro s; rfl
  | cons t ts ih =>
    intro s
    simp only [List.foldl_cons]
    exact ih _

theorem sweep_fold_actLog (now : Instant) :
    ∀ (todo : List Member) (s : Store),
      actLog (todo.foldl (sweepStep now) s) =
        actLog s ++ todo.map (fun m => ("membership_expired", some m.id)) := by
  intro todo
  induction todo with
  | nil => intro s; simp
  | cons t ts ih =>
    intro s
    simp only [List.foldl_cons]
    rw [ih]
    simp [actLog, sweepStep, addActivity, setMemberRows]

theorem sweep_fold_frames (now : Instant) :
    ∀ (todo : List Member) (s : Store),
      (todo.foldl (sweepStep now) s).payments = s.payments ∧
        (todo.foldl (sweepStep now) s).plans = s.plans ∧
        (todo.foldl (sweepStep now) s).users = s.users := by
  intro todo
  induction todo with
  | nil => intro s; exact ⟨rfl, rfl, rfl⟩
  | cons t ts ih =>
    intro s
    simp only [List.foldl_cons]
    exact ih _

theorem foldl_map_expire :
    ∀ (todo l : List Member),
      todo.foldl (fun l m => l.map (fun x => if x.id = m.id then expireMember x else x)) l =
        l.map (fun x => if todo.any (fun t => t.id == x.id) then expireMember x else x) := by
  intro todo
  induction todo with
  | nil => intro l; simp
  | cons t ts ih =>
    intro l
    simp only [List.foldl_cons]
    rw [ih, List.map_map]
    refine List.map_congr_left ?_
    intro x _
    by_cases hxt : x.id = t.id
    · simp only [Function.comp_apply, if_pos hxt, List.any_cons]
      have hbeq : (t.id == x.id) = true := beq_iff_eq.mpr hxt.symm
      simp [expireMember, hbeq]
    · simp only [Function.comp_apply, if_neg hxt, List.any_cons]
      have hbeq : (t.id == x.id) = false := beq_eq_false_iff_ne.mpr (Ne.symm hxt)
      simp [hbeq]

theorem any_filter_eq_cond {L : List Member} {cond : Member → Bool}
    (hnd : (L.map Member.id).Nodup) {x : Member} (hx : x ∈ L) :
    (L.filter cond).any (fun t => t.id == x.id) = cond x := by
  by_cases hc : cond x = true
  · rw [hc]
    exact List.any_eq_true.mpr ⟨x, List.mem_filter.mpr ⟨hx, hc⟩, by simp⟩
  · have hc' : cond x = false := by simpa using hc
    rw [hc']
    rw [List.any_eq_false]
    intro t ht
    rcases List.mem_filter.mp ht with ⟨htL, htc⟩
    intro hbeq
    have hteq : t.id = x.id := by simpa using hbeq
    have : t = x := List.inj_on_of_nodup_map hnd htL hx hteq
    rw [this] at htc
    rw [htc] at hc'
    cases hc'

theorem DatabaseStorage.getMembers_spec (s : Store) (now : Instant)
    (hnd : (s.members.map Member.id).Nodup) :
    (DatabaseStorage.getMembers s now).1 =
        s.members.map (fun m =>
          if memberExpired (Instant.truncMidnight now) m then expireMember m else m) ∧
      (DatabaseStorage.getMembers s now).2.members =
        (DatabaseStorage.getMembers s now).1 ∧
      actLog (DatabaseStorage.getMembers s now).2 =
        actLog s ++
          (s.members.filter (memberExpired (Instant.truncMidnight now))).map
            (fun m => ("membership_expired", some m.id)) ∧
      (DatabaseStorage.getMembers s now).2.payments = s.payments ∧
      (DatabaseStorage.getMembers s now).2.plans = s.plans ∧
      (DatabaseStorage.getMembers s now).2.users = s.users := by
  have h2 : (DatabaseStorage.getMembers s now).2 =
      (s.members.filter (memberExpired (Instant.truncMidnight now))).foldl
        (sweepStep now) s := rfl
  refine ⟨rfl, ?_, ?_, ?_, ?_, ?_⟩
  · rw [h2, sweep_fold_members, foldl_map_expire]
    refine List.map_congr_left ?_
    intro x hx
    rw [any_filter_eq_cond hnd hx]
  · rw [h2, sweep_fold_actLog]
  · rw [h2]; exact (sweep_fold_frames now _ s).1
  · rw [h2]; exact (sweep_fold_frames now _ s).2.1
  · rw [h2]; exact (sweep_fold_frames now _ s).2.2

theorem memGetMembers_spec (s : Store) (now : Instant)
    (hnd : (s.members.map Member.id).Nodup) :
    (MemStorage.getMembers s now).1 = (MemStorage.getMembers s now).2.members ∧
      (MemStorage.getMembers s now).2.members =
        s.members.map (fun m => if memberExpired now m then expireMember m else m) ∧
      actLog (MemStorage.getMembers s now).2 =
        actLog s ++
          (s.members.filter (memberExpired now)).map
            (fun m => ("membership_expired", some m.id)) ∧
      (MemStorage.getMembers s now).2.payments = s.payments ∧
      (MemStorage.getMembers s now).2.plans = s.plans ∧
      (MemStorage.getMembers s now).2.users = s.users := by
  have h2 : (MemStorage.getMembers s now).2 =
      (s.members.filter (memberExpired now)).foldl (sweepStep now) s := rfl
  refine ⟨rfl, ?_, ?_, ?_, ?_, ?_⟩
  · rw [h2, sweep_fold_members, foldl_map_expire]
    refine List.map_congr_left ?_
    intro x hx
    rw [any_filter_eq_cond hnd hx]
  · rw [h2, sweep_fold_actLog]
  · rw [h2]; exact (sweep_fold_frames now _ s).1
  · rw [h2]; exact (sweep_fold_frames now _ s).2.1
  · rw [h2]; exact (sweep_fold_frames now _ s).2.2

/-! ## Concrete fixtures for witnesses and counterexamples -/

/-- 2024-01-15T00:00Z. -/
def now0 : Instant := ⟨2024, 0, 15, 0⟩

def planD (ty : String) (d : Nat) : MembershipPlan :=
  ⟨1, "Basic", "Gym access", 2999, d, ty, [], true⟩

def memberA (st : Option String) (exp : Option Instant) : Member :=
  ⟨1, "Ana", "Diaz", "ana@gym.com", none, none, "2024-01-01", none, st, none, none, none,
    none, exp⟩

def payA (st : Option String) : Payment :=
  ⟨1, 1, 2999, now0, "Yape", 1, st, none, none, none, none⟩

def adminU : User :=
  ⟨9, "admin", "secret", "John Smith", "admin", "admin@gym.com", none, none⟩

def baseStore (us : List User) (pl : MembershipPlan) (m : Member) (ps : List Payment) :
    Store :=
  ⟨us, [pl], [m], ps, [], 2, 1⟩

def insertA (st : Option String) : InsertPayment :=
  ⟨1, 2999, now0, "Yape", 1, st, none, none, none, none⟩

/-! ## Claims -/

/-- Claim C1 counterexample: the claim says the duration type `daily`
advances the expiry by `duration` days at both call sites; on the
explicit-verify call site the switch has no `daily` case and no default
arm, so the expiry stays at the base date (here `now0`), which differs
from `now0 + 2` days. -/
theorem C1_counterexample :
    findMember
        (DatabaseStorage.verifyPayment
          (baseStore [adminU] (planD "daily" 2) (memberA (some "pending") none)
            [payA (some "pending")]) now0 1 9).2 1 =
      some { memberA (some "pending") none with
        status := some "active", planId := some 1, expiryDate := some now0 } ∧
    some now0 ≠ some (now0.addDays 2) := by
  constructor
  · decide
  · decide

/-- Claim C1 (amended): the two call sites use different duration
switches.  The create-with-verified-status switch recognizes
`daily`/`weekly`/`monthly`/`yearly`/`annual` and falls back to adding
`duration` days for every other type (including the `day`/`week`/
`month`/`year` aliases); the explicit-verify switch recognizes only
`day`/`week`/`month`/`year` and leaves the date unchanged for every
other type (including `daily`/`weekly`/`monthly`/`yearly`/`annual`).
The `duration > 0` defensive default exists only on the create site
(shown at the call sites by `C2_base_date_asymmetry`). -/
theorem C1_extension_arithmetic :
    ∀ (base : Instant) (d : Nat),
      createExtend base "daily" d = base.addDays d ∧
      createExtend base "weekly" d = base.addDays (d * 7) ∧
      createExtend base "monthly" d = base.addMonths d ∧
      createExtend base "yearly" d = base.addYears d ∧
      createExtend base "annual" d = base.addYears d ∧
      (∀ ty : String, ty ≠ "daily" → ty ≠ "weekly" → ty ≠ "monthly" → ty ≠ "yearly" →
        ty ≠ "annual" → createExtend base ty d = base.addDays d) ∧
      verifyExtend base "day" d = base.addDays d ∧
      verifyExtend base "week" d = base.addDays (d * 7) ∧
      verifyExtend base "month" d = base.addMonths d ∧
      verifyExtend base "year" d = base.addYears d ∧
      (∀ ty : String, ty ≠ "day" → ty ≠ "week" → ty ≠ "month" → ty ≠ "year" →
        verifyExtend base ty d = base) := by
  intro base d
  refine ⟨?_, ?_, ?_, ?_, ?_, ?_, ?_, ?_, ?_, ?_, ?_⟩
  · simp [createExtend]
  · simp [createExtend]
  · simp [createExtend]
  · simp [createExtend]
  · simp [createExtend]
  · intro ty h1 h2 h3 h4 h5
    simp [createExtend, h1, h2, h3, h4, h5]
  · simp [verifyExtend]
  · simp [verifyExtend]
  · simp [verifyExtend]
  · simp [verifyExtend]
  · intro ty h1 h2 h3 h4
    simp [verifyExtend, h1, h2, h3, h4]

theorem C1_extension_arithmetic_witness :
    createExtend now0 "month" 3 = now0.addDays 3 ∧
      verifyExtend now0 "monthly" 3 = now0 := by
  have h := C1_extension_arithmetic now0 3
  exact ⟨h.2.2.2.2.2.1 "month" (by decide) (by decide) (by decide) (by decide) (by decide),
    h.2.2.2.2.2.2.2.2.2.2 "monthly" (by decide) (by decide) (by decide) (by decide)⟩

/-- Claim C4 counterexample: a plan with `durationType = "monthly"` goes
through the explicit-verify switch unmatched, so the member's resulting
expiry equals the base date (`now0`) instead of being strictly after it. -/
theorem C4_counterexample :
    findMember
        (DatabaseStorage.verifyPayment
          (baseStore [adminU] (planD "monthly" 1) (memberA (some "pending") none)
            [payA (some "pending")]) now0 1 9).2 1 =
      some { memberA (some "pending") none with
        status := some "active", planId := some 1, expiryDate := some now0 } ∧
    ¬ Instant.Lt now0 now0 := by
  constructor
  · decide
  · decide

/-- Claim C4 (amended): the create-with-verified-status arithmetic
(defaulted duration, switch, plus one padding day) always lands strictly
after the base date; the explicit-verify arithmetic lands strictly after
the base date exactly when the duration type is one of the recognized
`day`/`week`/`month`/`year` aliases and the plan duration is positive —
for an unrecognized type (or a zero duration) it returns the base date
itself. -/
theorem C4_strictly_after :
    ∀ (base : Instant) (ty : String) (d : Nat), base.month < 12 →
      Instant.Lt base ((createExtend base ty (if d > 0 then d else 1)).addDays 1) ∧
      ((ty = "day" ∨ ty = "week" ∨ ty = "month" ∨ ty = "year") → 0 < d →
        Instant.Lt base (verifyExtend base ty d)) := by
  intro base ty d hm
  have hd : 0 < (if d > 0 then d else 1) := by
    by_cases h : d > 0
    · rw [if_pos h]; exact h
    · rw [if_neg h]; exact Nat.one_pos
  constructor
  · have key : ∀ k : Nat, 0 < k → Instant.Lt base (createExtend base ty k) := by
      intro k hk
      unfold createExtend
      split_ifs with h1 h2 h3 h4
      · exact Instant.lt_addDays base hk
      · exact Instant.lt_addDays base (by omega)
      · exact Instant.lt_addMonths base hm hk
      · exact Instant.lt_addYears base hk
      · exact Instant.lt_addDays base hk
    exact Instant.lt_trans' (key _ hd)
      (Instant.lt_addDays (createExtend base ty (if d > 0 then d else 1)) Nat.one_pos)
  · intro hty hdpos
    rcases hty with h | h | h | h <;> subst h
    · simpa [verifyExtend] using Instant.lt_addDays base hdpos
    · simpa [verifyExtend] using Instant.lt_addDays base (by omega : 0 < d * 7)
    · simpa [verifyExtend] using Instant.lt_addMonths base hm hdpos
    · simpa [verifyExtend] using Instant.lt_addYears base hdpos

theorem C4_strictly_after_witness :
    Instant.Lt now0 ((createExtend now0 "month" (if 0 > 0 then 0 else 1)).addDays 1) ∧
      Instant.Lt now0 (verifyExtend now0 "month" 3) := by
  have h := C4_strictly_after now0 "month" 0 (by decide)
  have h3 := C4_strictly_after now0 "month" 3 (by decide)
  exact ⟨h.1, h3.2 (Or.inr (Or.inr (Or.inl rfl))) (by decide)⟩

/-- Claim C8: verifying or rejecting a payment whose id does not resolve
returns `undefined` and leaves the whole store untouched. -/
theorem C8_not_found :
    ∀ (s : Store) (now : Instant) (id adminId : Nat) (notes : Option String),
      findPayment s id = none →
      DatabaseStorage.verifyPayment s now id adminId = (none, s) ∧
        DatabaseStorage.rejectPayment s now id adminId notes = (none, s) :=
  fun _ _ _ _ _ h =>
    ⟨DatabaseStorage.verifyPayment_notFound h, DatabaseStorage.rejectPayment_notFound h⟩

theorem C8_not_found_witness :
    DatabaseStorage.verifyPayment
        (baseStore [adminU] (planD "month" 1) (memberA (some "pending") none) []) now0 5 9 =
      (none, baseStore [adminU] (planD "month" 1) (memberA (some "pending") none) []) ∧
    DatabaseStorage.rejectPayment
        (baseStore [adminU] (planD "month" 1) (memberA (some "pending") none) []) now0 5 9
        (some "bad receipt") =
      (none, baseStore [adminU] (planD "month" 1) (memberA (some "pending") none) []) :=
  C8_not_found _ now0 5 9 (some "bad receipt") (by decide)

/-- Claim C2: the two extension call sites use asymmetric base-date
rules.  On explicit verification the base is the member's stored expiry
when present and not already past, else now, with no padding; on
create-with-verified-status the base is the payment's own paymentDate
regardless of the member's stored expiry (which appears nowhere in the
resulting formula), and one extra day is added after the duration
arithmetic. -/
theorem C2_base_date_asymmetry :
    (∀ (s : Store) (now : Instant) (id adminId : Nat) (payment : Payment)
        (member : Member) (admin : User) (plan : MembershipPlan),
      findPayment s id = some payment →
      findMember s payment.memberId = some member →
      findUser s adminId = some admin →
      findPlan s payment.planId = some plan →
      findMember (DatabaseStorage.verifyPayment s now id adminId).2 member.id =
        some { member with
          status := some "active", planId := some plan.id,
          expiryDate :=
            some (verifyExtend (verifyBase member now) plan.durationType plan.duration) }) ∧
    (∀ (s : Store) (now : Instant) (paymentData : InsertPayment) (member : Member)
        (plan : MembershipPlan),
      findMember s paymentData.memberId = some member →
      findPlan s paymentData.planId = some plan →
      statusOrVerified paymentData.status = "verified" →
      findMember (DatabaseStorage.createPayment s now paymentData).2 member.id =
        some { member with
          status := some "active", planId := some plan.id,
          expiryDate :=
            some ((createExtend paymentData.paymentDate plan.durationType
              (if plan.duration > 0 then plan.duration else 1)).addDays 1) }) :=
  ⟨fun _ _ _ _ _ _ _ _ hpay hmem hadm hplan =>
      DatabaseStorage.verifyPayment_member hpay hmem hadm hplan,
    fun _ _ _ _ _ hmem hplan hst =>
      DatabaseStorage.createPayment_member hmem hplan hst⟩

theorem C2_base_date_asymmetry_witness :
    findMember
        (DatabaseStorage.verifyPayment
          (baseStore [adminU] (planD "month" 2) (memberA (some "pending") none)
            [payA (some "pending")]) now0 1 9).2 1 =
      some { memberA (some "pending") none with
        status := some "active", planId := some 1,
        expiryDate :=
          some (verifyExtend (verifyBase (memberA (some "pending") none) now0) "month" 2) } ∧
    findMember
        (DatabaseStorage.createPayment
          (baseStore [adminU] (planD "month" 2) (memberA (some "pending") none) [])
          now0 (insertA none)).2 1 =
      some { memberA (some "pending") none with
        status := some "active", planId := some 1,
        expiryDate := some ((createExtend now0 "month" 2).addDays 1) } :=
  ⟨C2_base_date_asymmetry.1 _ now0 1 9 (payA (some "pending"))
      (memberA (some "pending") none) adminU (planD "month" 2)
      (by decide) (by decide) (by decide) (by decide),
    C2_base_date_asymmetry.2 _ now0 (insertA none)
      (memberA (some "pending") none) (planD "month" 2)
      (by decide) (by decide) (by decide)⟩

/-- Claim C3: `createPayment` with omitted status persists a `verified`
payment and runs the extension (member becomes active with the computed
expiry, one `payment_created` and one `membership_activated` audit entry
are appended); with status `pending` the member list is untouched. -/
theorem C3_status_default :
    (∀ (s : Store) (now : Instant) (paymentData : InsertPayment) (member : Member)
        (plan : MembershipPlan),
      paymentData.status = none →
      findMember s paymentData.memberId = some member →
      findPlan s paymentData.planId = some plan →
      (DatabaseStorage.createPayment s now paymentData).1.status = some "verified" ∧
        findMember (DatabaseStorage.createPayment s now paymentData).2 member.id =
          some { member with
            status := some "active", planId := some plan.id,
            expiryDate :=
              some ((createExtend paymentData.paymentDate plan.durationType
                (if plan.duration > 0 then plan.duration else 1)).addDays 1) } ∧
        actLog (DatabaseStorage.createPayment s now paymentData).2 =
          actLog s ++
            [("payment_created", some paymentData.memberId),
              ("membership_activated", some member.id)]) ∧
    (∀ (s : Store) (now : Instant) (paymentData : InsertPayment),
      paymentData.status = some "pending" →
      (DatabaseStorage.createPayment s now paymentData).1.status = some "pending" ∧
        (DatabaseStorage.createPayment s now paymentData).2.members = s.members) := by
  constructor
  · intro s now paymentData member plan hstat hmem hplan
    have hst : statusOrVerified paymentData.status = "verified" := by
      rw [hstat]; rfl
    refine ⟨?_, DatabaseStorage.createPayment_member hmem hplan hst,
      DatabaseStorage.createPayment_actLog hmem hplan hst⟩
    rw [DatabaseStorage.createPayment_payment hst]
  · intro s now paymentData hstat
    have hst : statusOrVerified paymentData.status ≠ "verified" := by
      rw [hstat]; decide
    have h := @DatabaseStorage.createPayment_not_verified s now paymentData hst
    refine ⟨?_, h.2.1⟩
    rw [h.1, hstat]
    simp [statusOrVerified]

theorem C3_status_default_witness :
    ((DatabaseStorage.createPayment
          (baseStore [adminU] (planD "daily" 7) (memberA (some "pending") none) [])
          now0 (insertA none)).1.status = some "verified" ∧
      findMember
          (DatabaseStorage.createPayment
            (baseStore [adminU] (planD "daily" 7) (memberA (some "pending") none) [])
            now0 (insertA none)).2 1 =
        some { memberA (some "pending") none with
          status := some "active", planId := some 1,
          expiryDate := some ((createExtend now0 "daily" 7).addDays 1) } ∧
      actLog (DatabaseStorage.createPayment
          (baseStore [adminU] (planD "daily" 7) (memberA (some "pending") none) [])
          now0 (insertA none)).2 =
        actLog (baseStore [adminU] (planD "daily" 7) (memberA (some "pending") none) []) ++
          [("payment_created", some 1), ("membership_activated", some 1)]) ∧
    ((DatabaseStorage.createPayment
          (baseStore [adminU] (planD "daily" 7) (memberA (some "pending") none) [])
          now0 (insertA (some "pending"))).1.status = some "pending" ∧
      (DatabaseStorage.createPayment
          (baseStore [adminU] (planD "daily" 7) (memberA (some "pending") none) [])
          now0 (insertA (some "pending"))).2.members =
        (baseStore [adminU] (planD "daily" 7) (memberA (some "pending") none) []).members) :=
  ⟨C3_status_default.1 _ now0 (insertA none) (memberA (some "pending") none)
      (planD "daily" 7) (by decide) (by decide) (by decide),
    C3_status_default.2 _ now0 (insertA (some "pending")) (by decide)⟩

/-- Claim C7: rejecting an existing payment updates only the payment row
(status `rejected`, `verifiedById` and `verifiedAt` set, notes
optionally overwritten), appends one `payment_rejected` audit entry, and
leaves every member row (and the plan and user tables) untouched. -/
theorem C7_reject_frame :
    ∀ (s : Store) (now : Instant) (id adminId : Nat) (notes : Option String)
      (payment : Payment) (member : Member) (admin : User),
      findPayment s id = some payment →
      findMember s payment.memberId = some member →
      findUser s adminId = some admin →
      (DatabaseStorage.rejectPayment s now id adminId notes).1 =
          some { payment with
            status := some "rejected", verifiedById := some adminId,
            verifiedAt := some now
            notes := match notes with | some n => some n | none => payment.notes } ∧
        (DatabaseStorage.rejectPayment s now id adminId notes).2.members = s.members ∧
        (DatabaseStorage.rejectPayment s now id adminId notes).2.plans = s.plans ∧
        (DatabaseStorage.rejectPayment s now id adminId notes).2.users = s.users ∧
        (DatabaseStorage.rejectPayment s now id adminId notes).2.payments =
          s.payments.map (fun q => if q.id = id then
            { payment with
              status := some "rejected", verifiedById := some adminId,
              verifiedAt := some now
              notes := match notes with | some n => some n | none => payment.notes }
            else q) ∧
        actLog (DatabaseStorage.rejectPayment s now id adminId notes).2 =
          actLog s ++ [("payment_rejected", some payment.memberId)] :=
  fun _ _ _ _ _ _ _ _ hpay hmem hadm =>
    DatabaseStorage.rejectPayment_spec hpay hmem hadm

theorem C7_reject_frame_witness :
    (DatabaseStorage.rejectPayment
          (baseStore [adminU] (planD "month" 1) (memberA (some "active") (some now0))
            [payA (some "pending")]) now0 1 9 (some "blurry receipt")).1 =
        some { payA (some "pending") with
          status := some "rejected", verifiedById := some 9, verifiedAt := some now0
          notes := match some "blurry receipt" with
            | some n => some n
            | none => (payA (some "pending")).notes } ∧
      (DatabaseStorage.rejectPayment
          (baseStore [adminU] (planD "month" 1) (memberA (some "active") (some now0))
            [payA (some "pending")]) now0 1 9 (some "blurry receipt")).2.members =
        (baseStore [adminU] (planD "month" 1) (memberA (some "active") (some now0))
          [payA (some "pending")]).members ∧
      (DatabaseStorage.rejectPayment
          (baseStore [adminU] (planD "month" 1) (memberA (some "active") (some now0))
            [payA (some "pending")]) now0 1 9 (some "blurry receipt")).2.plans =
        (baseStore [adminU] (planD "month" 1) (memberA (some "active") (some now0))
          [payA (some "pending")]).plans ∧
      (DatabaseStorage.rejectPayment
          (baseStore [adminU] (planD "month" 1) (memberA (some "active") (some now0))
            [payA (some "pending")]) now0 1 9 (some "blurry receipt")).2.users =
        (baseStore [adminU] (planD "month" 1) (memberA (some "active") (some now0))
          [payA (some "pending")]).users ∧
      (DatabaseStorage.rejectPayment
          (baseStore [adminU] (planD "month" 1) (memberA (some "active") (some now0))
            [payA (some "pending")]) now0 1 9 (some "blurry receipt")).2.payments =
        (baseStore [adminU] (planD "month" 1) (memberA (some "active") (some now0))
          [payA (some "pending")]).payments.map (fun q => if q.id = 1 then
            { payA (some "pending") with
              status := some "rejected", verifiedById := some 9, verifiedAt := some now0
              notes := match some "blurry receipt" with
                | some n => some n
                | none => (payA (some "pending")).notes }
            else q) ∧
      actLog (DatabaseStorage.rejectPayment
          (baseStore [adminU] (planD "month" 1) (memberA (some "active") (some now0))
            [payA (some "pending")]) now0 1 9 (some "blurry receipt")).2 =
        actLog (baseStore [adminU] (planD "month" 1) (memberA (some "active") (some now0))
          [payA (some "pending")]) ++ [("payment_rejected", some 1)] :=
  C7_reject_frame _ now0 1 9 (some "blurry receipt") (payA (some "pending"))
    (memberA (some "active") (some now0)) adminU (by decide) (by decide) (by decide)

/-- Claim C5 counterexample: `MemStorage.getMembers` compares the stored
expiry against the **full** current timestamp, not a midnight-truncated
one.  A member whose expiry is earlier the same day (same calendar date)
is flipped to `expired`, although under a date-only comparison the
expiry is not strictly before now. -/
theorem C5_counterexample :
    (MemStorage.getMembers
        (baseStore [adminU] (planD "month" 1)
          (memberA (some "active") (some ⟨2024, 0, 15, 1000⟩)) [])
        ⟨2024, 0, 15, 5000⟩).2.members =
      [expireMember (memberA (some "active") (some ⟨2024, 0, 15, 1000⟩))] ∧
    ¬ Instant.Lt (Instant.truncMidnight ⟨2024, 0, 15, 1000⟩)
        (Instant.truncMidnight ⟨2024, 0, 15, 5000⟩) := by
  constructor
  · decide
  · decide

/-- Claim C5 (amended): both `getMembers` implementations flip exactly
the active members with a non-null expiry strictly before the sweep
instant, emit exactly one `membership_expired` audit entry per affected
member (carrying that member's id), leave all other members and the
other tables untouched, and return the post-sweep member list — but the
sweep instant differs: `DatabaseStorage` truncates now to midnight
(date-only comparison), `MemStorage` uses the full timestamp. -/
theorem C5_sweep :
    ∀ (s : Store) (now : Instant), (s.members.map Member.id).Nodup →
      (DatabaseStorage.getMembers s now).1 =
          s.members.map (fun m =>
            if memberExpired (Instant.truncMidnight now) m then expireMember m else m) ∧
        (DatabaseStorage.getMembers s now).2.members =
          (DatabaseStorage.getMembers s now).1 ∧
        actLog (DatabaseStorage.getMembers s now).2 =
          actLog s ++
            (s.members.filter (memberExpired (Instant.truncMidnight now))).map
              (fun m => ("membership_expired", some m.id)) ∧
        (DatabaseStorage.getMembers s now).2.payments = s.payments ∧
        (DatabaseStorage.getMembers s now).2.plans = s.plans ∧
        (DatabaseStorage.getMembers s now).2.users = s.users ∧
        (MemStorage.getMembers s now).1 = (MemStorage.getMembers s now).2.members ∧
        (MemStorage.getMembers s now).2.members =
          s.members.map (fun m => if memberExpired now m then expireMember m else m) ∧
        actLog (MemStorage.getMembers s now).2 =
          actLog s ++
            (s.members.filter (memberExpired now)).map
              (fun m => ("membership_expired", some m.id)) ∧
        (MemStorage.getMembers s now).2.payments = s.payments ∧
        (MemStorage.getMembers s now).2.plans = s.plans ∧
        (MemStorage.getMembers s now).2.users = s.users := by
  intro s now hnd
  obtain ⟨d1, d2, d3, d4, d5, d6⟩ := DatabaseStorage.getMembers_spec s now hnd
  obtain ⟨m1, m2, m3, m4, m5, m6⟩ := memGetMembers_spec s now hnd
  exact ⟨d1, d2, d3, d4, d5, d6, m1, m2, m3, m4, m5, m6⟩

/-- The store for the sweep witness: member 1 is active and long
expired, member 2 is active with a future expiry. -/
def sweepStore : Store :=
  ⟨[adminU], [planD "month" 1],
    [memberA (some "active") (some ⟨2023, 11, 31, 0⟩),
      { memberA (some "active") (some ⟨2025, 0, 1, 0⟩) with id := 2 }], [], [], 1, 1⟩

theorem C5_sweep_witness :
    (DatabaseStorage.getMembers sweepStore now0).1 =
        sweepStore.members.map (fun m =>
          if memberExpired (Instant.truncMidnight now0) m then expireMember m else m) ∧
      actLog (DatabaseStorage.getMembers sweepStore now0).2 =
        actLog sweepStore ++
          (sweepStore.members.filter (memberExpired (Instant.truncMidnight now0))).map
            (fun m => ("membership_expired", some m.id)) := by
  have h := C5_sweep sweepStore now0 (by decide)
  exact ⟨h.1, h.2.2.1⟩

/-- Claim C6: `verifyPayment` never inspects the payment's prior status;
on a payment that is already `verified` it re-runs the extension, and
with a future stored expiry and a positive day-type duration the
member's expiry is pushed strictly later again (stacking). -/
theorem C6_verify_not_idempotent :
    ∀ (s : Store) (now : Instant) (id adminId : Nat) (payment : Payment) (member : Member)
      (admin : User) (plan : MembershipPlan) (e : Instant) (d : Nat),
      findPayment s id = some payment →
      payment.status = some "verified" →
      findMember s payment.memberId = some member →
      findUser s adminId = some admin →
      findPlan s payment.planId = some plan →
      member.expiryDate = some e →
      ¬ Instant.Lt e now →
      plan.durationType = "day" →
      plan.duration = d →
      0 < d →
      findMember (DatabaseStorage.verifyPayment s now id adminId).2 member.id =
          some { member with
            status := some "active", planId := some plan.id,
            expiryDate := some (e.addDays d) } ∧
        Instant.Lt e (e.addDays d) := by
  intro s now id adminId payment member admin plan e d hpay hstat hmem hadm hplan hexp hlt
    hdt hdur hd
  have h := @DatabaseStorage.verifyPayment_member s now id adminId payment member admin
    plan hpay hmem hadm hplan
  have hbase : verifyBase member now = e := by
    simp [verifyBase, hexp, hlt]
  have hext :
      verifyExtend (verifyBase member now) plan.durationType plan.duration = e.addDays d := by
    rw [hbase, hdt, hdur]
    simp [verifyExtend]
  rw [hext] at h
  exact ⟨h, Instant.lt_addDays e hd⟩

/-- The post-state of a first successful verification of payment 1:
payment 1 is already `verified` and the member's expiry sits 30 days in
the future. -/
def onceVerified : Store :=
  (DatabaseStorage.verifyPayment
    (baseStore [adminU] (planD "day" 30) (memberA (some "pending") none)
      [payA (some "pending")]) now0 1 9).2

set_option maxRecDepth 4000 in
theorem C6_verify_not_idempotent_witness :
    findMember (DatabaseStorage.verifyPayment onceVerified now0 1 9).2 1 =
        some { { memberA (some "pending") none with
          status := some "active", planId := some 1,
          expiryDate := some (⟨2024, 1, 14, 0⟩ : Instant) } with
          status := some "active", planId := some 1,
          expiryDate := some ((⟨2024, 1, 14, 0⟩ : Instant).addDays 30) } ∧
      Instant.Lt ⟨2024, 1, 14, 0⟩ ((⟨2024, 1, 14, 0⟩ : Instant).addDays 30) :=
  C6_verify_not_idempotent onceVerified now0 1 9
    { payA (some "pending") with
      status := some "verified", verifiedById := some 9, verifiedAt := some now0 }
    { memberA (some "pending") none with
      status := some "active", planId := some 1,
      expiryDate := some (⟨2024, 1, 14, 0⟩ : Instant) }
    adminU (planD "day" 30) ⟨2024, 1, 14, 0⟩ 30
    (by decide) (by decide) (by decide) (by decide) (by decide) (by decide) (by decide)
    (by decide) (by decide) (by decide)

/-- Claim C9 counterexample: with the same starting store and the same
insert data (status omitted), `DatabaseStorage.createPayment` persists a
`verified` payment and activates the member, while
`MemStorage.createPayment` stores the payment with no status at all and
leaves the member pending — observably different results. -/
theorem C9_counterexample :
    (DatabaseStorage.createPayment
        (baseStore [adminU] (planD "daily" 1) (memberA (some "pending") none) [])
        now0 (insertA none)).1.status = some "verified" ∧
      (MemStorage.createPayment
        (baseStore [adminU] (planD "daily" 1) (memberA (some "pending") none) [])
        now0 (insertA none)).1.status = none ∧
      (findMember (DatabaseStorage.createPayment
        (baseStore [adminU] (planD "daily" 1) (memberA (some "pending") none) [])
        now0 (insertA none)).2 1).map Member.status = some (some "active") ∧
      (findMember (MemStorage.createPayment
        (baseStore [adminU] (planD "daily" 1) (memberA (some "pending") none) [])
        now0 (insertA none)).2 1).map Member.status = some (some "pending") := by
  refine ⟨?_, ?_, ?_, ?_⟩ <;> decide

/-- Claim C9 (amended): the implementations are not interchangeable, but
they agree on the explicit-verify extension arithmetic: for the same
store and inputs both compute the same new member expiry and set the
member active; `DatabaseStorage` additionally writes the member's
`planId` and logs `membership_activated`, `MemStorage` does neither. -/
theorem C9_partial_agreement :
    ∀ (s : Store) (now : Instant) (id adminId : Nat) (payment : Payment) (member : Member)
      (admin : User) (plan : MembershipPlan),
      findPayment s id = some payment →
      findMember s payment.memberId = some member →
      findUser s adminId = some admin →
      findPlan s payment.planId = some plan →
      findMember (DatabaseStorage.verifyPayment s now id adminId).2 member.id =
          some { member with
            status := some "active", planId := some plan.id,
            expiryDate :=
              some (verifyExtend (verifyBase member now) plan.durationType plan.duration) } ∧
        findMember (MemStorage.verifyPayment s now id adminId).2 member.id =
          some { member with
            status := some "active",
            expiryDate :=
              some (verifyExtend (verifyBase member now) plan.durationType plan.duration) } ∧
        actLog (DatabaseStorage.verifyPayment s now id adminId).2 =
          actLog s ++
            [("payment_verified", some payment.memberId),
              ("member_updated", some member.id),
              ("membership_activated", some member.id)] ∧
        actLog (MemStorage.verifyPayment s now id adminId).2 =
          actLog s ++
            [("payment_verified", some payment.memberId),
              ("member_updated", some member.id)] :=
  fun _ _ _ _ _ _ _ _ hpay hmem hadm hplan =>
    ⟨DatabaseStorage.verifyPayment_member hpay hmem hadm hplan,
      memVerifyPayment_member hpay hmem hadm hplan,
      DatabaseStorage.verifyPayment_actLog hpay hmem hadm hplan,
      memVerifyPayment_actLog hpay hmem hadm hplan⟩

theorem C9_partial_agreement_witness :
    findMember (DatabaseStorage.verifyPayment
        (baseStore [adminU] (planD "month" 1) (memberA (some "pending") none)
          [payA (some "pending")]) now0 1 9).2 1 =
        some { memberA (some "pending") none with
          status := some "active", planId := some 1,
          expiryDate :=
            some (verifyExtend (verifyBase (memberA (some "pending") none) now0)
              "month" 1) } ∧
      findMember (MemStorage.verifyPayment
        (baseStore [adminU] (planD "month" 1) (memberA (some "pending") none)
          [payA (some "pending")]) now0 1 9).2 1 =
        some { memberA (some "pending") none with
          status := some "active",
          expiryDate :=
            some (verifyExtend (verifyBase (memberA (some "pending") none) now0)
              "month" 1) } := by
  have h := C9_partial_agreement
    (baseStore [adminU] (planD "month" 1) (memberA (some "pending") none)
      [payA (some "pending")]) now0 1 9 (payA (some "pending"))
    (memberA (some "pending") none) adminU (planD "month" 1)
    (by decide) (by decide) (by decide) (by decide)
  exact ⟨h.1, h.2.1⟩

/-- Claim C10: when the payment exists but the member, the plan, or the
verifying admin cannot be resolved, `verifyPayment` still marks the
payment verified (with `verifiedById`/`verifiedAt` set) and returns it,
while skipping the extension, the member update and both audit entries,
reporting no error. -/
theorem C10_partial_verify :
    ∀ (s : Store) (now : Instant) (id adminId : Nat) (payment : Payment),
      findPayment s id = some payment →
      (findMember s payment.memberId = none ∨ findUser s adminId = none ∨
        findPlan s payment.planId = none) →
      (DatabaseStorage.verifyPayment s now id adminId).1 =
          some { payment with
            status := some "verified", verifiedById := some adminId,
            verifiedAt := some now } ∧
        (DatabaseStorage.verifyPayment s now id adminId).2.members = s.members ∧
        (DatabaseStorage.verifyPayment s now id adminId).2.activities = s.activities ∧
        (DatabaseStorage.verifyPayment s now id adminId).2.payments =
          s.payments.map (fun q => if q.id = id then
            { payment with
              status := some "verified", verifiedById := some adminId,
              verifiedAt := some now } else q) := by
  intro s now id adminId payment hpay hmiss
  obtain ⟨h1, h2, h3, _, _, h6⟩ := DatabaseStorage.verifyPayment_missing hpay hmiss
  exact ⟨h1, h2, h3, h6⟩

theorem C10_partial_verify_witness :
    (DatabaseStorage.verifyPayment
        (⟨[], [planD "month" 1], [memberA (some "pending") none],
          [payA (some "pending")], [], 2, 1⟩ : Store) now0 1 9).1 =
        some { payA (some "pending") with
          status := some "verified", verifiedById := some 9, verifiedAt := some now0 } ∧
      (DatabaseStorage.verifyPayment
        (⟨[], [planD "month" 1], [memberA (some "pending") none],
          [payA (some "pending")], [], 2, 1⟩ : Store) now0 1 9).2.members =
        (⟨[], [planD "month" 1], [memberA (some "pending") none],
          [payA (some "pending")], [], 2, 1⟩ : Store).members ∧
      (DatabaseStorage.verifyPayment
        (⟨[], [planD "month" 1], [memberA (some "pending") none],
          [payA (some "pending")], [], 2, 1⟩ : Store) now0 1 9).2.activities =
        (⟨[], [planD "month" 1], [memberA (some "pending") none],
          [payA (some "pending")], [], 2, 1⟩ : Store).activities := by
  have h := C10_partial_verify
    (⟨[], [planD "month" 1], [memberA (some "pending") none],
      [payA (some "pending")], [], 2, 1⟩ : Store) now0 1 9 (payA (some "pending"))
    (by decide) (Or.inr (Or.inl (by decide)))
  exact ⟨h.1, h.2.1, h.2.2.1⟩
